import Mathlib

/-!
Shallow embedding of the nview monitoring tool (blinklabs-io/nview), covering
the peer discovery and probing engine (peers.go), the epoch/slot arithmetic
(main.go getEpochProgress, env.go getSlotTipRef, main.go tcpinfoRtt) and the
named-network configuration population (internal/config/config.go).

Modelling conventions:
- Go strings are Lean `String`s; `strings.Split` with a one-character
  separator is modelled by a structurally recursive splitter over the
  character list (`gsplit`), which agrees with Go's `strings.Split`.
- Go `uint64` arithmetic is `Nat` with explicit reduction modulo `2 ^ 64`
  (`add64`, `sub64`, `mul64`) where the source operates on `uint64`.
- Go `float32` arithmetic in `getEpochProgress` is modelled by exact
  rationals, with IEEE division-by-zero made explicit: a value is either a
  rational number, positive infinity, or NaN (`F32`).
- Go run-time panics (index out of range on a slice) and integer division
  by zero are modelled by `Except`/`Option` error results.
- Fallible effects (dial, socket option read, JSON round trip in
  `tcpinfoRtt`; the RTT probe and geo lookup in `pingPeers`) are abstracted
  into outcome parameters / oracle functions supplied to the model.
-/

/-! ## Go string primitives -/

/-- `strings.Split` for a one-character separator, on the character list.
Like Go, it never returns an empty list: splitting the empty string yields
`[[]]`. -/
def splitCharAux (sep : Char) : List Char → List (List Char)
  | [] => [[]]
  | c :: cs =>
    if c = sep then [] :: splitCharAux sep cs
    else
      match splitCharAux sep cs with
      | [] => [[c]]
      | t :: ts => (c :: t) :: ts

/-- `strings.Split(s, sep)` for a one-character separator `sep`. -/
def gsplit (s : String) (sep : Char) : List String :=
  (splitCharAux sep s.toList).map (fun cs => String.mk cs)

/-- `strings.HasPrefix(s, c)` for a one-character pattern `c`. -/
def hasLeadChar (s : String) (c : Char) : Bool :=
  match s.toList with
  | [] => false
  | d :: _ => d = c

/-- `strings.HasSuffix(s, c)` for a one-character pattern `c`. -/
def hasTrailChar (s : String) (c : Char) : Bool :=
  match s.toList.getLast? with
  | none => false
  | some d => d = c

/-- `strings.TrimPrefix(s, c)` for a one-character pattern `c`. -/
def trimLeadChar (s : String) (c : Char) : String :=
  if hasLeadChar s c then String.mk (s.toList.drop 1) else s

/-- `strings.TrimSuffix(s, c)` for a one-character pattern `c`. -/
def trimTrailChar (s : String) (c : Char) : String :=
  if hasTrailChar s c then String.mk s.toList.dropLast else s

/-- Decimal digit run to a number; `none` when empty or a non-digit occurs,
mirroring the error cases of `strconv.Atoi` on an unsigned body. -/
def digitsValAux : List Char → Nat → Option Nat
  | [], acc => some acc
  | c :: cs, acc =>
    if c.isDigit then digitsValAux cs (acc * 10 + (c.toNat - 48)) else none

def digitsVal : List Char → Option Nat
  | [] => none
  | l => digitsValAux l 0

/-- `strconv.Atoi(s)` with the caller's error handling in `pingPeers`:
a parse error yields `0`. -/
def atoiOrZero (s : String) : Int :=
  match s.toList with
  | '-' :: rest =>
    match digitsVal rest with
    | some n => -(n : Int)
    | none => 0
  | '+' :: rest =>
    match digitsVal rest with
    | some n => (n : Int)
    | none => 0
  | l =>
    match digitsVal l with
    | some n => (n : Int)
    | none => 0

/-! ## Go uint64 arithmetic -/

/-- `2 ^ 64`, the modulus of Go `uint64` arithmetic. -/
def U64 : Nat := 2 ^ 64

def add64 (a b : Nat) : Nat := (a + b) % U64

def mul64 (a b : Nat) : Nat := (a * b) % U64

/-- Go `uint64` subtraction `a - b` (wrapping), for `a b < 2 ^ 64`. -/
def sub64 (a b : Nat) : Nat := (a + U64 - b % U64) % U64

/-- Go conversion `uint64(i)` of a signed value: two's-complement
reinterpretation modulo `2 ^ 64`. -/
def i32ToU64 (i : Int) : Nat := (i % ((2 : Int) ^ 64)).toNat

/-! ## Configuration model (internal/config/config.go) -/

structure AppConfig where
  network : String
deriving DecidableEq, Repr

structure ByronGenesisConfig where
  startTime : Nat
  epochLength : Nat
  k : Nat
  slotLength : Nat
deriving DecidableEq, Repr

structure ShelleyGenesisConfig where
  epochLength : Nat
  slotLength : Nat
  slotsPerKESPeriod : Nat
deriving DecidableEq, Repr

structure NodeConfig where
  byronGenesis : ByronGenesisConfig
  network : String
  port : Nat
  shelleyGenesis : ShelleyGenesisConfig
  shelleyTransEpoch : Int
deriving DecidableEq, Repr

structure Config where
  app : AppConfig
  node : NodeConfig
deriving DecidableEq, Repr

/-- `getDefaultConfig` (the fields the claims depend on). -/
def getDefaultConfig : Config :=
  { app := { network := "" }
    node :=
      { byronGenesis := { startTime := 0, epochLength := 0, k := 0, slotLength := 0 }
        network := "mainnet"
        port := 3001
        shelleyGenesis := { epochLength := 0, slotLength := 0, slotsPerKESPeriod := 0 }
        shelleyTransEpoch := -1 } }

/-- `populateShelleyTransEpoch` from config.go. -/
def populateShelleyTransEpoch (c : Config) : Except String Config :=
  if c.node.shelleyTransEpoch ≠ (-1 : Int) then .ok c
  else
    let c := { c with node.shelleyTransEpoch := 0 }
    if c.app.network ≠ "" then
      if c.app.network = "preprod" then .ok { c with node.shelleyTransEpoch := 4 }
      else if c.app.network = "mainnet" then .ok { c with node.shelleyTransEpoch := 208 }
      else .ok c
    else if c.node.network ≠ "" then
      if c.node.network = "preprod" then .ok { c with node.shelleyTransEpoch := 4 }
      else if c.node.network = "mainnet" then .ok { c with node.shelleyTransEpoch := 208 }
      else .ok c
    else .error "unable to populate shelley transition epoch"

/-- `populateByronGenesis` from config.go. -/
def populateByronGenesis (c : Config) : Except String Config :=
  if c.node.byronGenesis.startTime ≠ 0 then .ok c
  else
    let c := { c with node.byronGenesis.slotLength := 20000, node.byronGenesis.k := 2160 }
    let done : Config → Except String Config := fun c =>
      .ok { c with node.byronGenesis.epochLength := 10 * c.node.byronGenesis.k }
    if c.app.network ≠ "" then
      if c.app.network = "preview" then
        done { c with node.byronGenesis.k := 432, node.byronGenesis.startTime := 1666656000 }
      else if c.app.network = "preprod" then
        done { c with node.byronGenesis.startTime := 1654041600 }
      else if c.app.network = "sancho" then
        done { c with node.byronGenesis.k := 432, node.byronGenesis.startTime := 1686789000 }
      else if c.app.network = "mainnet" then
        done { c with node.byronGenesis.startTime := 1506203091 }
      else done c
    else if c.node.network ≠ "" then
      if c.node.network = "preview" then
        done { c with node.byronGenesis.k := 432, node.byronGenesis.startTime := 1666656000 }
      else if c.node.network = "preprod" then
        done { c with node.byronGenesis.startTime := 1654041600 }
      else if c.node.network = "sancho" then
        done { c with node.byronGenesis.k := 432, node.byronGenesis.startTime := 1686789000 }
      else if c.node.network = "mainnet" then
        done { c with node.byronGenesis.startTime := 1506203091 }
      else done c
    else .error "unable to populate byron genesis config"

/-- `populateShelleyGenesis` from config.go. -/
def populateShelleyGenesis (c : Config) : Except String Config :=
  if c.node.shelleyGenesis.epochLength ≠ 0 then .ok c
  else
    let c := { c with
      node.shelleyGenesis.slotLength := 1000,
      node.shelleyGenesis.slotsPerKESPeriod := 129600,
      node.shelleyGenesis.epochLength := 432000 }
    if c.app.network ≠ "" then
      if c.app.network = "sancho" then .ok { c with node.shelleyGenesis.epochLength := 86400 }
      else if c.app.network = "preview" then .ok { c with node.shelleyGenesis.epochLength := 86400 }
      else .ok c
    else if c.node.network ≠ "" then
      if c.node.network = "sancho" then .ok { c with node.shelleyGenesis.epochLength := 86400 }
      else if c.node.network = "preview" then .ok { c with node.shelleyGenesis.epochLength := 86400 }
      else .ok c
    else .error "unable to populate shelley genesis config"

/-- The configuration obtained for network "mainnet" by running the
populate passes of `LoadConfig` over the defaults. -/
def mainnetCfg : Config :=
  match (populateByronGenesis getDefaultConfig).bind
      (fun c => (populateShelleyGenesis c).bind populateShelleyTransEpoch) with
  | .ok c => c
  | .error _ => getDefaultConfig

/-! ## getEpochProgress (main.go) -/

/-- A Go `float32` value as produced by `getEpochProgress`: an exact
rational, positive infinity, or NaN. All operands in the source are
nonnegative, so division by zero yields `inf` (or `nan` for `0/0`). -/
inductive F32 where
  | num (q : ℚ)
  | inf
  | nan
deriving DecidableEq, Repr

/-- Go `float32` division on nonnegative operands, exact-rational model. -/
def fdiv (a b : ℚ) : F32 :=
  if b = 0 then (if a = 0 then F32.nan else F32.inf) else F32.num (a / b)

def fmul100 : F32 → F32
  | F32.num q => F32.num (q * 100)
  | F32.inf => F32.inf
  | F32.nan => F32.nan

/-- The Prometheus metric snapshot fields read by `getEpochProgress`. -/
structure PromMetrics where
  epochNum : Nat
  slotInEpoch : Nat
deriving DecidableEq, Repr

/-- `getEpochProgress` from main.go. `promMetrics = none` models the nil
metrics snapshot. The comparison `EpochNum >= uint64(ShelleyTransEpoch)`
runs under the `ShelleyTransEpoch >= 0` guard, so the cast is the
mathematical value. -/
def getEpochProgress (cfg : Config) (promMetrics : Option PromMetrics) : F32 :=
  if cfg.node.shelleyTransEpoch < 0 then F32.num 0
  else
    match promMetrics with
    | none => F32.num 0
    | some m =>
      if cfg.node.shelleyTransEpoch.toNat ≤ m.epochNum then
        fmul100 (fdiv (m.slotInEpoch : ℚ) (cfg.node.shelleyGenesis.epochLength : ℚ))
      else
        fmul100 (fdiv (m.slotInEpoch : ℚ) (cfg.node.byronGenesis.epochLength : ℚ))

/-! ## getSlotTipRef (env.go) -/

/-- The Byron era end time as computed inside `getSlotTipRef` / `getEpoch`:
`startTime + (transEpoch * byronEpochLength * byronSlotLength) / 1000`
in `uint64` arithmetic. -/
def byronEndTime (cfg : Config) : Nat :=
  add64 cfg.node.byronGenesis.startTime
    ((mul64 (mul64 (i32ToU64 cfg.node.shelleyTransEpoch) cfg.node.byronGenesis.epochLength)
        cfg.node.byronGenesis.slotLength) / 1000)

/-- The legacy (Byron) branch formula of `getSlotTipRef`:
`((now - startTime) * 1000) / byronSlotLength` in `uint64` arithmetic. -/
def slotTipLegacyFormula (cfg : Config) (currentTimeSec : Nat) : Nat :=
  (mul64 (sub64 currentTimeSec cfg.node.byronGenesis.startTime) 1000) /
    cfg.node.byronGenesis.slotLength

/-- `getSlotTipRef` from env.go. `gSlotLengthNanos` is `g.SlotLength` of
the genesis query result (nanoseconds). Go integer division by zero is a
run-time panic, modelled by `none`. -/
def getSlotTipRef (cfg : Config) (gSlotLengthNanos : Nat) (currentTimeSec : Nat) : Option Nat :=
  let trans := i32ToU64 cfg.node.shelleyTransEpoch
  let byronSlots := mul64 trans cfg.node.byronGenesis.epochLength
  let byronEnd := byronEndTime cfg
  if currentTimeSec < byronEnd then
    if cfg.node.byronGenesis.slotLength = 0 then none
    else some (slotTipLegacyFormula cfg currentTimeSec)
  else
    if gSlotLengthNanos / 1000000 = 0 then none
    else some (add64 byronSlots ((sub64 currentTimeSec byronEnd) / (gSlotLengthNanos / 1000000)))

/-! ## tcpinfoRtt (main.go) -/

/-- The fallible steps of a `tcpinfoRtt` probe, in source order: the dial
(including its 3-second timeout), the nil-connection check, `tcp.NewConn`,
the TCP-option read, `json.Marshal`, and `json.Unmarshal`.
`unmarshalErr` carries the millisecond value of `q.RTT` held by the
partially-decoded structure at the failure point; `success` carries the
measured RTT of the fully-decoded structure. -/
inductive ProbeOutcome where
  | dialErr
  | nilConn
  | newConnErr
  | optionErr
  | marshalErr
  | unmarshalErr (qRTTMillis : Int)
  | success (qRTTMillis : Int)
deriving DecidableEq, Repr

/-- `tcpinfoRtt` from main.go: `result` starts at the sentinel `99999`;
every failed step before `json.Unmarshal` returns it unchanged, and the
measured RTT is assigned to `result` only inside the
`if err := json.Unmarshal(txt, &q); err != nil` branch. -/
def tcpinfoRtt : ProbeOutcome → Int
  | ProbeOutcome.dialErr => 99999
  | ProbeOutcome.nilConn => 99999
  | ProbeOutcome.newConnErr => 99999
  | ProbeOutcome.optionErr => 99999
  | ProbeOutcome.marshalErr => 99999
  | ProbeOutcome.unmarshalErr q => q
  | ProbeOutcome.success _ => 99999

/-! ## filterPeers (peers.go) -/

/-- The self-connection guard of `filterPeers`: remote IP is loopback, or
`publicIP` is discovered (non-nil), equals the remote IP, and the remote
port is the configured node port (`strconv.FormatUint`). -/
def isSelfPeer (publicIP : Option String) (nodePort : Nat) (ip port : String) : Bool :=
  ip == "127.0.0.1" ||
    (match publicIP with
    | some pub => ip == pub && port == toString nodePort
    | none => false)

/-- The IPv6 bracket strip of `filterPeers`:
`if HasPrefix "[" then TrimPrefix(TrimSuffix(ip, "]"), "[")`. -/
def bracketTrim (s : String) : String :=
  if hasLeadChar s '[' then trimLeadChar (trimTrailChar s ']') '[' else s

/-- The inner working-set scan of `filterPeers`: walk `peers` by index,
split each entry on `":"`, compare the first component with `peerIP`; on a
match read `p[2]` of the connection split `pParts` (a run-time panic,
`.error`, when `pParts` has fewer than three components) and break with the
matched index when it differs from `dir`. -/
def scanPeers (pParts : List String) (peerIP dir : String) :
    List String → Nat → Except String (Option Nat)
  | [], _ => .ok none
  | toCheck :: rest, i =>
    let checkIP := (gsplit toCheck ':').headD ""
    if checkIP = peerIP then
      match pParts.get? 2 with
      | none => .error "index out of range"
      | some d =>
        if d ≠ dir then .ok (some i)
        else scanPeers pParts peerIP dir rest (i + 1)
    else scanPeers pParts peerIP dir rest (i + 1)

/-- One iteration of a `filterPeers` processing loop (`dir` is `"i"` for
the inbound loop, `"o"` for the outbound loop) over one `"ip:port"`
connection string. Mirrors peers.go lines 91-168: split on `":"` (the nil
check is dead code: `strings.Split` never returns nil), read `p[0]` and
`p[1]` (`p[1]` panics when no `":"` is present), trim IPv6 brackets, drop
self connections, then scan the working set and either merge to an
`"i+o"` entry (delete at the matched index, append the merged entry) or
append a fresh entry. -/
def processOne (publicIP : Option String) (nodePort : Nat) (dir : String)
    (peers : List String) (peer : String) : Except String (List String) :=
  let p := gsplit peer ':'
  let peerIP0 := p.headD ""
  match p.get? 1 with
  | none => .error "index out of range"
  | some peerPORT =>
    let peerIP := bracketTrim peerIP0
    if isSelfPeer publicIP nodePort peerIP peerPORT then .ok peers
    else
      match scanPeers p peerIP dir peers 0 with
      | .error e => .error e
      | .ok (some i) => .ok ((peers.eraseIdx i) ++ [peerIP ++ ";" ++ peerPORT ++ ";" ++ "i+o"])
      | .ok none => .ok (peers ++ [peerIP ++ ";" ++ peerPORT ++ ";" ++ dir])

/-- One `filterPeers` processing loop over a whole connection list. -/
def foldPeers (publicIP : Option String) (nodePort : Nat) (dir : String) :
    List String → List String → Except String (List String)
  | peers, [] => .ok peers
  | peers, x :: xs =>
    match processOne publicIP nodePort dir peers x with
    | .error e => .error e
    | .ok peers2 => foldPeers publicIP nodePort dir peers2 xs

/-- The working-set construction of `filterPeers`: the inbound loop over
`peersIn` starting from the empty set, then the outbound loop over
`peersOut`. -/
def filterPeersBuild (publicIP : Option String) (nodePort : Nat)
    (peersIn peersOut : List String) : Except String (List String) :=
  match foldPeers publicIP nodePort "i" [] peersIn with
  | .error e => .error e
  | .ok peers1 => foldPeers publicIP nodePort "o" peers1 peersOut

/-- A full `filterPeers` pass as it affects the `peersFiltered` snapshot:
the early return when the RTT results slice already matches the snapshot
length, the early return when both connection lists are empty, and the
final length-compare-only replacement. (The `processMetrics == nil` and
connection-query-error returns likewise leave the snapshot unchanged and
are subsumed by the early-return shape.) -/
def filterPeersStep (rttSliceLen : Nat) (peersFiltered : List String)
    (publicIP : Option String) (nodePort : Nat)
    (peersIn peersOut : List String) : Except String (List String) :=
  if rttSliceLen ≠ 0 ∧ rttSliceLen = peersFiltered.length then .ok peersFiltered
  else if peersIn = [] ∧ peersOut = [] then .ok peersFiltered
  else
    match filterPeersBuild publicIP nodePort peersIn peersOut with
    | .error e => .error e
    | .ok peers => .ok (if peers.length ≠ peersFiltered.length then peers else peersFiltered)

/-! ## pingPeers (peers.go) -/

/-- The `Peer` record of peers.go. `UpdatedAt` is seconds since epoch. -/
structure PeerRec where
  direction : String
  ip : String
  rtt : Int
  port : Int
  location : String
  updatedAt : Nat
deriving DecidableEq, Repr

/-- Go map lookup `RTTresultsMap[peerIP]` on an association list. -/
def lookupPeer : List (String × PeerRec) → String → Option PeerRec
  | [], _ => none
  | (k, p) :: rest, ip => if k = ip then some p else lookupPeer rest ip

/-- Go map assignment `RTTresultsMap[peerIP] = peer` (overwrite). -/
def insertPeer (m : List (String × PeerRec)) (k : String) (p : PeerRec) :
    List (String × PeerRec) := (k, p) :: m

/-- Insertion step for `sort.Sort` over `Less i j := p[i].RTT < p[j].RTT`. -/
def insertByRTT (p : PeerRec) : List PeerRec → List PeerRec
  | [] => [p]
  | q :: qs => if p.rtt < q.rtt then p :: q :: qs else q :: insertByRTT p qs

/-- `sort.Sort(peerStats.RTTresultsSlice)`: sort ascending by RTT. -/
def sortByRTT (l : List PeerRec) : List PeerRec := l.foldr insertByRTT []

/-- The mutable `peerStats` fields of peers.go plus the `checkPeers` /
`scrollPeers` flags. Percentages are Go `float32`, modelled as exact
rationals (they are plain finite divisions under a positivity guard). -/
structure PingState where
  rttsum : Int
  rttavg : Int
  cnt0 : Nat
  cnt1 : Nat
  cnt2 : Nat
  cnt3 : Nat
  cnt4 : Nat
  pct1 : ℚ
  pct2 : ℚ
  pct3 : ℚ
  pct4 : ℚ
  pct1items : Int
  pct2items : Int
  pct3items : Int
  pct4items : Int
  rttResultsMap : List (String × PeerRec)
  rttResultsSlice : List PeerRec
  checkPeers : Bool
  scrollPeers : Bool

/-- The program-start / post-`resetPeers`-from-start state. -/
def initialPingState : PingState :=
  { rttsum := 0, rttavg := 0, cnt0 := 0, cnt1 := 0, cnt2 := 0, cnt3 := 0, cnt4 := 0
    pct1 := 0, pct2 := 0, pct3 := 0, pct4 := 0
    pct1items := 0, pct2items := 0, pct3items := 0, pct4items := 0
    rttResultsMap := [], rttResultsSlice := [], checkPeers := true, scrollPeers := false }

/-- The probing body of `pingPeers` after the early-return checks: run the
RTT probe (`rttOf`, abstracting `tcpinfoRtt` over the live network), update
`RTTSUM` (excluding the sentinel), bump exactly one bucket counter via the
`<50 / <100 / <200 / <99999 / else` chain, build the `Peer` record with
the geo lookup (`locOf`), store it in the map, append it to the slice and
sort the slice by RTT. -/
def processPingCore (rttOf : String → Int) (locOf : String → String) (now : Nat)
    (st : PingState) (peerIP peerPORT peerDIR : String) : PingState :=
  let peerRTT := rttOf (peerIP ++ ":" ++ peerPORT)
  let rttsum := if peerRTT ≠ 99999 then st.rttsum + peerRTT else st.rttsum
  let counters :=
    if peerRTT < 50 then (st.cnt0, st.cnt1 + 1, st.cnt2, st.cnt3, st.cnt4)
    else if peerRTT < 100 then (st.cnt0, st.cnt1, st.cnt2 + 1, st.cnt3, st.cnt4)
    else if peerRTT < 200 then (st.cnt0, st.cnt1, st.cnt2, st.cnt3 + 1, st.cnt4)
    else if peerRTT < 99999 then (st.cnt0, st.cnt1, st.cnt2, st.cnt3, st.cnt4 + 1)
    else (st.cnt0 + 1, st.cnt1, st.cnt2, st.cnt3, st.cnt4)
  let rec0 : PeerRec :=
    { direction := peerDIR, ip := peerIP, rtt := peerRTT, port := atoiOrZero peerPORT
      location := locOf peerIP, updatedAt := now }
  { st with
    rttsum := rttsum
    cnt0 := counters.1, cnt1 := counters.2.1, cnt2 := counters.2.2.1
    cnt3 := counters.2.2.2.1, cnt4 := counters.2.2.2.2
    rttResultsMap := insertPeer st.rttResultsMap peerIP rec0
    rttResultsSlice := sortByRTT (st.rttResultsSlice ++ [rec0]) }

/-- One iteration of the `pingPeers` probing loop over one working-set
entry `v` (`"ip;port;dir"`): split on `";"`, read the three components
(`peerArr[1]` / `peerArr[2]` panic on malformed entries), apply the
recently-checked and known-location early returns against the results map,
otherwise run the probing body. -/
def processPingPeer (rttOf : String → Int) (locOf : String → String) (now : Nat)
    (st : PingState) (v : String) : Except String PingState :=
  let peerArr := gsplit v ';'
  let peerIP := peerArr.headD ""
  match peerArr.get? 1, peerArr.get? 2 with
  | some peerPORT, some peerDIR =>
    (match lookupPeer st.rttResultsMap peerIP with
    | some existing =>
      if now - 600 < existing.updatedAt ∧ existing.rtt ≠ 0 then .ok st
      else if existing.location ≠ "---" then .ok st
      else .ok (processPingCore rttOf locOf now st peerIP peerPORT peerDIR)
    | none => .ok (processPingCore rttOf locOf now st peerIP peerPORT peerDIR))
  | _, _ => .error "index out of range"

/-- The `pingPeers` probing loop over the working set (sequential: the
loop body waits on its goroutine before the next iteration). -/
def pingPeersFold (rttOf : String → Int) (locOf : String → String) (now : Nat) :
    PingState → List String → Except String PingState
  | st, [] => .ok st
  | st, v :: vs =>
    match processPingPeer rttOf locOf now st v with
    | .error e => .error e
    | .ok st2 => pingPeersFold rttOf locOf now st2 vs

/-- The `RTTAVG` / percentage derivation stage of `pingPeers`, computed
over reachable peers (`peerCount - CNT0`) when that count is positive,
otherwise a no-op. `int(PCT)` truncation and Go `int` division are
`Int.floor` (operands are nonnegative) and `Int.tdiv`;
`granularitySmall = 68 / 2`. -/
def applyPctFields (st : PingState) (peerCount : Nat) : PingState :=
  let granularity : Int := 68
  let granularitySmall : Int := granularity / 2
  let reachable : Int := (peerCount : Int) - (st.cnt0 : Int)
  if 0 < reachable then
    { st with
      rttavg := Int.tdiv st.rttsum reachable
      pct1 := (st.cnt1 : ℚ) / (reachable : ℚ) * 100
      pct1items := Int.tdiv (⌊(st.cnt1 : ℚ) / (reachable : ℚ) * 100⌋ * granularitySmall) 100
      pct2 := (st.cnt2 : ℚ) / (reachable : ℚ) * 100
      pct2items := Int.tdiv (⌊(st.cnt2 : ℚ) / (reachable : ℚ) * 100⌋ * granularitySmall) 100
      pct3 := (st.cnt3 : ℚ) / (reachable : ℚ) * 100
      pct3items := Int.tdiv (⌊(st.cnt3 : ℚ) / (reachable : ℚ) * 100⌋ * granularitySmall) 100
      pct4 := (st.cnt4 : ℚ) / (reachable : ℚ) * 100
      pct4items := Int.tdiv (⌊(st.cnt4 : ℚ) / (reachable : ℚ) * 100⌋ * granularitySmall) 100 }
  else st

/-- The completion stage of `pingPeers`: once the results slice has caught
up with the working-set size, stop probing and enable scrolling. -/
def applyCompletion (st : PingState) (peerCount : Nat) : PingState :=
  if st.rttResultsSlice.length ≠ 0 ∧ peerCount ≤ st.rttResultsSlice.length then
    { st with checkPeers := false, scrollPeers := true }
  else st

/-- `pingPeers` from peers.go: clear `scrollPeers`, and when `checkPeers`
is set run the probing loop, derive the percentage fields
(`applyPctFields`) and set the completion flags (`applyCompletion`). -/
def pingPeers (rttOf : String → Int) (locOf : String → String) (now : Nat)
    (peersFiltered : List String) (st0 : PingState) : Except String PingState :=
  let stA := { st0 with scrollPeers := false }
  if stA.checkPeers then
    match pingPeersFold rttOf locOf now stA peersFiltered with
    | .error e => .error e
    | .ok st => .ok (applyCompletion (applyPctFields st peersFiltered.length) peersFiltered.length)
  else .ok stA

/-! ## Derived definitions used by the verification -/

/-- Sum of the five RTT bucket counters. -/
def countersSum (st : PingState) : Nat :=
  st.cnt0 + st.cnt1 + st.cnt2 + st.cnt3 + st.cnt4

/-- A working-set entry that was legitimately added by `filterPeers`:
it has the `"ip;port;dir"` shape and its IP/port passed the
self-connection guard. -/
def entryOk (publicIP : Option String) (nodePort : Nat) (e : String) : Prop :=
  ∃ ip port d, e = ip ++ ";" ++ port ++ ";" ++ d
    ∧ isSelfPeer publicIP nodePort ip port = false

/-- A mainnet configuration whose Shelley epoch length has been zeroed,
exercising the unguarded division of `getEpochProgress`. -/
def zeroLenCfg : Config := { mainnetCfg with node.shelleyGenesis.epochLength := 0 }

/-- Constant RTT oracle used by concrete witness runs. -/
def rttOracleW : String → Int := fun _ => 42

/-- Constant geo-location oracle used by concrete witness runs. -/
def locOracleW : String → String := fun _ => "US"

/-- A concrete two-peer working set used by concrete witness runs. -/
def peersFilteredW : List String := ["10.0.0.5;3001;i", "10.0.0.6;3001;o"]

/-- The state produced by one `pingPeers` pass over `peersFilteredW`
from the program-start state. -/
def pingPeersResultW : PingState :=
  match pingPeers rttOracleW locOracleW 1000 peersFilteredW initialPingState with
  | .ok st => st
  | .error _ => initialPingState

/-! ## Claim theorems -/

/-- Claim C7: `getEpochProgress` returns `0.0` whenever the configured
Shelley transition epoch is negative (unresolved, sentinel `-1`), for any
metric inputs, including a missing metrics snapshot. -/
theorem getEpochProgress_transition_sentinel (cfg : Config)
    (promMetrics : Option PromMetrics) (h : cfg.node.shelleyTransEpoch < 0) :
    getEpochProgress cfg promMetrics = F32.num 0 := by
  unfold getEpochProgress
  rw [if_pos h]

/-- Witness for C7: the sentinel configuration `-1` with an actual metrics
snapshot present yields `0.0`. -/
theorem getEpochProgress_transition_sentinel_witness :
    getEpochProgress { mainnetCfg with node.shelleyTransEpoch := -1 }
      (some { epochNum := 208, slotInEpoch := 100000 }) = F32.num 0 :=
  getEpochProgress_transition_sentinel _ _ (by decide)

/-- Claim C10: in `tcpinfoRtt` the measured RTT is assigned to the result
only in the branch where `json.Unmarshal` fails; a probe in which every
step succeeds returns the sentinel `99999` instead of the measured RTT. -/
theorem tcpinfoRtt_success_returns_sentinel :
    (∀ q : Int, tcpinfoRtt (ProbeOutcome.success q) = 99999)
    ∧ (∀ q : Int, tcpinfoRtt (ProbeOutcome.unmarshalErr q) = q) :=
  ⟨fun _ => rfl, fun _ => rfl⟩

/-- Claim C8: a probe whose TCP connect fails or times out returns the
sentinel `99999` rather than an error, and in the `pingPeers` body a
sentinel RTT increments `CNT0`, leaves `RTTSUM` unchanged, and leaves the
other bucket counters unchanged. -/
theorem tcpinfoRtt_sentinel_on_failure :
    tcpinfoRtt ProbeOutcome.dialErr = 99999
    ∧ ∀ (rttOf : String → Int) (locOf : String → String) (now : Nat)
        (st : PingState) (ip port d : String),
        rttOf (ip ++ ":" ++ port) = 99999 →
        (processPingCore rttOf locOf now st ip port d).cnt0 = st.cnt0 + 1
        ∧ (processPingCore rttOf locOf now st ip port d).rttsum = st.rttsum
        ∧ (processPingCore rttOf locOf now st ip port d).cnt1 = st.cnt1
        ∧ (processPingCore rttOf locOf now st ip port d).cnt2 = st.cnt2
        ∧ (processPingCore rttOf locOf now st ip port d).cnt3 = st.cnt3
        ∧ (processPingCore rttOf locOf now st ip port d).cnt4 = st.cnt4 := by
  refine ⟨rfl, ?_⟩
  intro rttOf locOf now st ip port d h
  simp [processPingCore, h]

/-- Witness for C8: a concrete unreachable probe bumps `CNT0` from the
start state. -/
theorem tcpinfoRtt_sentinel_on_failure_witness :
    (processPingCore (fun _ => 99999) (fun _ => "US") 5 initialPingState
      "10.0.0.5" "3001" "i").cnt0 = initialPingState.cnt0 + 1 :=
  (tcpinfoRtt_sentinel_on_failure.2 (fun _ => 99999) (fun _ => "US") 5
    initialPingState "10.0.0.5" "3001" "i" rfl).1

/-- Claim C1 is violated by the code: on the spec's own scenario (one
inbound connection from 10.0.0.5:3001, one outbound to 10.0.0.5:4001, one
loopback connection), the working set built by `filterPeers` holds TWO
entries for IP 10.0.0.5 — one per direction — instead of a single merged
duplex entry. The inner dedup scan splits the existing `"ip;port;dir"`
entries on `":"` instead of `";"`, so the extracted "IP" is the whole
entry and never matches, leaving the duplex-merge branch dead. -/
theorem filterPeers_dedup_broken :
    filterPeersBuild (some "203.0.113.7") 3001
        ["10.0.0.5:3001", "127.0.0.1:3001"] ["10.0.0.5:4001"]
      = .ok ["10.0.0.5;3001;i", "10.0.0.5;4001;o"]
    ∧ (gsplit "10.0.0.5;3001;i" ';').headD ""
        = (gsplit "10.0.0.5;4001;o" ';').headD "" :=
  ⟨rfl, rfl⟩

/-- Claim C2: with a resolved transition epoch, `getEpochProgress` is
`100 * slotInEpoch / shelleyEpochLength` when the reported epoch has
reached the transition epoch and `100 * slotInEpoch / byronEpochLength`
otherwise (stated for a nonzero selected epoch length, the valid-input
regime); whenever the reported slot-in-epoch is strictly below the
selected epoch length the value lies in `[0, 100)`; and on mainnet
(transition epoch 208, Shelley epoch length 432000) epoch 208 with
slot-in-epoch 100000 gives roughly 23.1 percent. -/
theorem getEpochProgress_spec (cfg : Config) (pm : PromMetrics)
    (hres : 0 ≤ cfg.node.shelleyTransEpoch) :
    (cfg.node.shelleyTransEpoch.toNat ≤ pm.epochNum →
        cfg.node.shelleyGenesis.epochLength ≠ 0 →
        getEpochProgress cfg (some pm)
          = F32.num ((pm.slotInEpoch : ℚ) / (cfg.node.shelleyGenesis.epochLength : ℚ) * 100))
    ∧ (pm.epochNum < cfg.node.shelleyTransEpoch.toNat →
        cfg.node.byronGenesis.epochLength ≠ 0 →
        getEpochProgress cfg (some pm)
          = F32.num ((pm.slotInEpoch : ℚ) / (cfg.node.byronGenesis.epochLength : ℚ) * 100))
    ∧ (pm.slotInEpoch <
          (if cfg.node.shelleyTransEpoch.toNat ≤ pm.epochNum then
            cfg.node.shelleyGenesis.epochLength
          else cfg.node.byronGenesis.epochLength) →
        ∃ q : ℚ, getEpochProgress cfg (some pm) = F32.num q ∧ 0 ≤ q ∧ q < 100)
    ∧ (∃ q : ℚ,
        getEpochProgress mainnetCfg (some { epochNum := 208, slotInEpoch := 100000 })
          = F32.num q ∧ (231 : ℚ) / 10 ≤ q ∧ q < (232 : ℚ) / 10) := by
  have hnot : ¬ cfg.node.shelleyTransEpoch < 0 := not_lt.mpr hres
  have hshelley : ∀ (_ : cfg.node.shelleyTransEpoch.toNat ≤ pm.epochNum)
      (_ : cfg.node.shelleyGenesis.epochLength ≠ 0),
      getEpochProgress cfg (some pm)
        = F32.num ((pm.slotInEpoch : ℚ) / (cfg.node.shelleyGenesis.epochLength : ℚ) * 100) := by
    intro he hlen
    unfold getEpochProgress
    rw [if_neg hnot]
    simp only [if_pos he]
    unfold fdiv
    rw [if_neg (by exact_mod_cast hlen)]
    rfl
  have hbyron : ∀ (_ : pm.epochNum < cfg.node.shelleyTransEpoch.toNat)
      (_ : cfg.node.byronGenesis.epochLength ≠ 0),
      getEpochProgress cfg (some pm)
        = F32.num ((pm.slotInEpoch : ℚ) / (cfg.node.byronGenesis.epochLength : ℚ) * 100) := by
    intro he hlen
    unfold getEpochProgress
    rw [if_neg hnot]
    simp only [if_neg (not_le.mpr he)]
    unfold fdiv
    rw [if_neg (by exact_mod_cast hlen)]
    rfl
  have hbound : ∀ (slot len : Nat), slot < len →
      (0 : ℚ) ≤ (slot : ℚ) / (len : ℚ) * 100 ∧ (slot : ℚ) / (len : ℚ) * 100 < 100 := by
    intro slot len hlt
    have hlen0 : (0 : ℚ) < (len : ℚ) := by exact_mod_cast Nat.pos_of_ne_zero (by omega)
    have hcast : (slot : ℚ) < (len : ℚ) := by exact_mod_cast hlt
    constructor
    · positivity
    · have h1 : (slot : ℚ) / (len : ℚ) < 1 := (div_lt_one hlen0).mpr hcast
      nlinarith
  refine ⟨hshelley, hbyron, ?_, ?_⟩
  · intro hlt
    by_cases he : cfg.node.shelleyTransEpoch.toNat ≤ pm.epochNum
    · rw [if_pos he] at hlt
      have hlen : cfg.node.shelleyGenesis.epochLength ≠ 0 := by omega
      exact ⟨_, hshelley he hlen, hbound _ _ hlt⟩
    · rw [if_neg he] at hlt
      have hlen : cfg.node.byronGenesis.epochLength ≠ 0 := by omega
      exact ⟨_, hbyron (not_le.mp he) hlen, hbound _ _ hlt⟩
  · refine ⟨(100000 : ℚ) / 432000 * 100, ?_, by norm_num, by norm_num⟩
    have h1 : mainnetCfg.node.shelleyTransEpoch = 208 := by decide
    have h2 : mainnetCfg.node.shelleyGenesis.epochLength = 432000 := by decide
    simp [getEpochProgress, fdiv, fmul100, h1, h2]

/-- Witness for C2: the mainnet scenario instantiated through the
theorem. -/
theorem getEpochProgress_spec_witness :
    ∃ q : ℚ,
      getEpochProgress mainnetCfg (some { epochNum := 208, slotInEpoch := 100000 })
        = F32.num q ∧ (231 : ℚ) / 10 ≤ q ∧ q < (232 : ℚ) / 10 :=
  (getEpochProgress_spec mainnetCfg { epochNum := 208, slotInEpoch := 100000 }
    (by decide)).2.2.2

/-- Counterexample to claim C4: `getEpochProgress` has no zero-denominator
guard. With a mainnet configuration whose Shelley epoch length is zeroed,
reported epoch 208 (Shelley branch) and slot-in-epoch 5, the result is the
unguarded float division `5 / 0 = +Inf`, not `0.0`. -/
theorem getEpochProgress_zero_length_counterexample :
    getEpochProgress zeroLenCfg (some { epochNum := 208, slotInEpoch := 5 }) = F32.inf
    ∧ getEpochProgress zeroLenCfg (some { epochNum := 208, slotInEpoch := 5 })
        ≠ F32.num 0 := by
  have h1 : zeroLenCfg.node.shelleyTransEpoch = 208 := by decide
  have h2 : zeroLenCfg.node.shelleyGenesis.epochLength = 0 := by decide
  have h : getEpochProgress zeroLenCfg (some { epochNum := 208, slotInEpoch := 5 })
      = F32.inf := by
    simp [getEpochProgress, fdiv, fmul100, h1, h2]
  exact ⟨h, by rw [h]; exact fun hc => F32.noConfusion hc⟩

/-- Claim C4 amended: with a resolved transition epoch and a metrics
snapshot present, when the epoch length of the selected era is `0` the
division is NOT guarded: `getEpochProgress` returns the IEEE division
result — NaN for slot-in-epoch `0`, and +Inf otherwise — never `0.0`. -/
theorem getEpochProgress_zero_length_unguarded (cfg : Config) (pm : PromMetrics)
    (hres : 0 ≤ cfg.node.shelleyTransEpoch)
    (hlen : (if cfg.node.shelleyTransEpoch.toNat ≤ pm.epochNum then
        cfg.node.shelleyGenesis.epochLength
      else cfg.node.byronGenesis.epochLength) = 0) :
    getEpochProgress cfg (some pm)
      = (if pm.slotInEpoch = 0 then F32.nan else F32.inf) := by
  have hnot : ¬ cfg.node.shelleyTransEpoch < 0 := not_lt.mpr hres
  unfold getEpochProgress
  rw [if_neg hnot]
  by_cases he : cfg.node.shelleyTransEpoch.toNat ≤ pm.epochNum
  · rw [if_pos he] at hlen
    simp only [if_pos he, hlen]
    by_cases hs : pm.slotInEpoch = 0 <;> simp [fdiv, fmul100, hs]
  · rw [if_neg he] at hlen
    simp only [if_neg he, hlen]
    by_cases hs : pm.slotInEpoch = 0 <;> simp [fdiv, fmul100, hs]

/-- Witness for the amended C4: the counterexample configuration produces
+Inf through the amended theorem. -/
theorem getEpochProgress_zero_length_unguarded_witness :
    getEpochProgress zeroLenCfg (some { epochNum := 208, slotInEpoch := 5 }) = F32.inf := by
  have h := getEpochProgress_zero_length_unguarded zeroLenCfg
    { epochNum := 208, slotInEpoch := 5 } (by decide) (by decide)
  simpa using h

/-- Claim C9: a `filterPeers` pass replaces the `peersFiltered` snapshot
only when the newly built working set's cardinality differs from the
snapshot's; when the sizes are equal the snapshot is left unchanged even
if the membership differs. -/
theorem filterPeers_cardinality_only (rttSliceLen : Nat) (old : List String)
    (publicIP : Option String) (nodePort : Nat) (peersIn peersOut : List String) :
    (∀ bp, filterPeersBuild publicIP nodePort peersIn peersOut = .ok bp →
        bp.length = old.length →
        filterPeersStep rttSliceLen old publicIP nodePort peersIn peersOut = .ok old)
    ∧ (∀ out, filterPeersStep rttSliceLen old publicIP nodePort peersIn peersOut = .ok out →
        out ≠ old →
        ∃ bp, filterPeersBuild publicIP nodePort peersIn peersOut = .ok bp
          ∧ out = bp ∧ bp.length ≠ old.length) := by
  unfold filterPeersStep
  split_ifs with h1 h2
  · refine ⟨fun bp _ _ => rfl, fun out hout hne => ?_⟩
    injection hout with h
    exact absurd h.symm hne
  · refine ⟨fun bp _ _ => rfl, fun out hout hne => ?_⟩
    injection hout with h
    exact absurd h.symm hne
  · cases hbuild : filterPeersBuild publicIP nodePort peersIn peersOut with
    | error e =>
      refine ⟨fun bp hbp _ => ?_, fun out hout _ => ?_⟩
      · cases hbp
      · cases hout
    | ok bp0 =>
      dsimp only
      by_cases hl : bp0.length = old.length
      · rw [if_neg (by simpa using hl)]
        refine ⟨fun bp _ _ => rfl, fun out hout hne => ?_⟩
        injection hout with h
        exact absurd h.symm hne
      · rw [if_pos (by simpa using hl)]
        refine ⟨fun bp hbp hlen => ?_, fun out hout _ => ?_⟩
        · injection hbp with h
          rw [h] at hl
          exact absurd hlen hl
        · injection hout with h
          exact ⟨bp0, rfl, h.symm, hl⟩

/-- Witness for C9: a one-element snapshot and a same-size rebuild with
different membership: the snapshot is kept. -/
theorem filterPeers_cardinality_only_witness :
    filterPeersStep 0 ["10.0.0.7;1;i"] none 3001 ["10.0.0.9:1"] []
      = .ok ["10.0.0.7;1;i"] :=
  (filterPeers_cardinality_only 0 ["10.0.0.7;1;i"] none 3001 ["10.0.0.9:1"] []).1
    ["10.0.0.9;1;i"] rfl rfl

/-- Every element added to the working set by one `processOne` step has
the `"ip;port;dir"` shape with an IP/port that passed the self-connection
guard; existing well-formed elements are preserved (the merge branch only
deletes and re-appends). -/
theorem processOne_entryOk {publicIP : Option String} {nodePort : Nat} {dir : String}
    {peers : List String} {peer : String} {out : List String}
    (hrun : processOne publicIP nodePort dir peers peer = .ok out)
    (hin : ∀ e ∈ peers, entryOk publicIP nodePort e) :
    ∀ e ∈ out, entryOk publicIP nodePort e := by
  simp only [processOne] at hrun
  split at hrun
  · cases hrun
  · split at hrun
    · injection hrun with h
      rw [← h]
      exact hin
    · rename_i hself
      rw [Bool.not_eq_true] at hself
      split at hrun
      · cases hrun
      · injection hrun with h
        rw [← h]
        intro e he
        rcases List.mem_append.mp he with hmem | hmem
        · exact hin e (List.eraseIdx_subset _ _ hmem)
        · rw [List.mem_singleton.mp hmem]
          exact ⟨_, _, _, rfl, hself⟩
      · injection hrun with h
        rw [← h]
        intro e he
        rcases List.mem_append.mp he with hmem | hmem
        · exact hin e hmem
        · rw [List.mem_singleton.mp hmem]
          exact ⟨_, _, _, rfl, hself⟩

/-- Invariant propagation of `processOne_entryOk` through one whole
`filterPeers` processing loop. -/
theorem foldPeers_entryOk (publicIP : Option String) (nodePort : Nat) (dir : String) :
    ∀ (xs peers out : List String),
      foldPeers publicIP nodePort dir peers xs = .ok out →
      (∀ e ∈ peers, entryOk publicIP nodePort e) →
      ∀ e ∈ out, entryOk publicIP nodePort e := by
  intro xs
  induction xs with
  | nil =>
    intro peers out h hin
    injection h with h
    rw [← h]
    exact hin
  | cons x xs ih =>
    intro peers out h hin
    simp only [foldPeers] at h
    cases hp : processOne publicIP nodePort dir peers x with
    | error e =>
      rw [hp] at h
      cases h
    | ok peers2 =>
      rw [hp] at h
      exact ih peers2 out h (processOne_entryOk hp hin)

/-- Claim C6: no connection whose remote IP is the loopback address, and
no connection whose remote IP is the discovered public IP with the
configured node port, is ever added to the working set, in both the
inbound and the outbound processing loops: every entry of the built
working set passed the self-connection guard. -/
theorem filterPeers_self_exclusion (publicIP : Option String) (nodePort : Nat)
    (peersIn peersOut out : List String)
    (hrun : filterPeersBuild publicIP nodePort peersIn peersOut = .ok out) :
    ∀ e ∈ out, entryOk publicIP nodePort e := by
  unfold filterPeersBuild at hrun
  cases h1 : foldPeers publicIP nodePort "i" [] peersIn with
  | error e =>
    rw [h1] at hrun
    cases hrun
  | ok peers1 =>
    rw [h1] at hrun
    exact foldPeers_entryOk publicIP nodePort "o" peersOut peers1 out hrun
      (foldPeers_entryOk publicIP nodePort "i" peersIn [] peers1 h1 (by simp))

/-- Witness for C6: a concrete run whose single surviving entry is
shown to satisfy the guard (while the loopback and self-public
connections of the run were dropped). -/
theorem filterPeers_self_exclusion_witness :
    entryOk (some "203.0.113.7") 3001 "10.0.0.5;3001;i" :=
  filterPeers_self_exclusion (some "203.0.113.7") 3001
    ["10.0.0.5:3001", "127.0.0.1:3001", "203.0.113.7:3001"] [] ["10.0.0.5;3001;i"]
    rfl "10.0.0.5;3001;i" (by simp)

/-- `uint64` addition is exact below the modulus. -/
theorem add64_eq {a b : Nat} (h : a + b < U64) : add64 a b = a + b :=
  Nat.mod_eq_of_lt h

/-- `uint64` multiplication is exact below the modulus. -/
theorem mul64_eq {a b : Nat} (h : a * b < U64) : mul64 a b = a * b :=
  Nat.mod_eq_of_lt h

/-- `uint64` subtraction is exact when it does not underflow. -/
theorem sub64_eq {a b : Nat} (hb : b ≤ a) (ha : a < U64) : sub64 a b = a - b := by
  have hU : U64 = 18446744073709551616 := by norm_num [U64]
  simp only [sub64, hU] at *
  omega

/-- The signed-to-`uint64` conversion of a small nonnegative value. -/
theorem i32ToU64_eq {i : Int} (h0 : 0 ≤ i) (h : i < (2 : Int) ^ 64) :
    i32ToU64 i = i.toNat := by
  unfold i32ToU64
  rw [Int.emod_eq_of_lt h0 h]

/-- Claim C3: the two branches of `getSlotTipRef` agree at the era
boundary. For any genesis parameters with positive Byron slot length and
epoch length, a resolved transition epoch, a genesis slot length of at
least one millisecond, and products that fit in `uint64`: at
`now = byronEndTime` the function takes the modern branch and returns
exactly `transitionEpoch * byronEpochLength + 0`, while the legacy-branch
formula evaluated at the same instant is below that value by at most the
integer-division rounding error `999 / byronSlotLength + 1` (in
particular, at most `1` for the millisecond slot lengths of real
networks). -/
theorem getSlotTipRef_era_boundary (cfg : Config) (gSlotLengthNanos : Nat)
    (htr : 0 ≤ cfg.node.shelleyTransEpoch)
    (hS : 0 < cfg.node.byronGenesis.slotLength)
    (hE : 0 < cfg.node.byronGenesis.epochLength)
    (hg : 1000000 ≤ gSlotLengthNanos)
    (hfit : cfg.node.shelleyTransEpoch.toNat * cfg.node.byronGenesis.epochLength *
        cfg.node.byronGenesis.slotLength < U64)
    (hfit2 : cfg.node.byronGenesis.startTime +
        cfg.node.shelleyTransEpoch.toNat * cfg.node.byronGenesis.epochLength *
          cfg.node.byronGenesis.slotLength / 1000 < U64) :
    getSlotTipRef cfg gSlotLengthNanos (byronEndTime cfg)
      = some (cfg.node.shelleyTransEpoch.toNat * cfg.node.byronGenesis.epochLength + 0)
    ∧ slotTipLegacyFormula cfg (byronEndTime cfg)
      ≤ cfg.node.shelleyTransEpoch.toNat * cfg.node.byronGenesis.epochLength
    ∧ cfg.node.shelleyTransEpoch.toNat * cfg.node.byronGenesis.epochLength
      ≤ slotTipLegacyFormula cfg (byronEndTime cfg)
        + 999 / cfg.node.byronGenesis.slotLength + 1 := by
  set T := cfg.node.shelleyTransEpoch.toNat with hT
  set E := cfg.node.byronGenesis.epochLength with hEdef
  set S := cfg.node.byronGenesis.slotLength with hSdef
  set ST := cfg.node.byronGenesis.startTime with hSTdef
  have hTle : T ≤ T * E * S :=
    le_trans (Nat.le_mul_of_pos_right T hE) (Nat.le_mul_of_pos_right (T * E) hS)
  have hTEle : T * E ≤ T * E * S := Nat.le_mul_of_pos_right (T * E) hS
  have hiU : cfg.node.shelleyTransEpoch < (2 : Int) ^ 64 := by
    have h1 : T < U64 := lt_of_le_of_lt hTle hfit
    have h2 : cfg.node.shelleyTransEpoch = (T : Int) := (Int.toNat_of_nonneg htr).symm
    rw [h2]
    have hU : U64 = 2 ^ 64 := rfl
    exact_mod_cast hU ▸ h1
  have htrans : i32ToU64 cfg.node.shelleyTransEpoch = T := i32ToU64_eq htr hiU
  have hTE : T * E < U64 := lt_of_le_of_lt hTEle hfit
  have hmul1 : mul64 T E = T * E := mul64_eq hTE
  have ht : mul64 (mul64 T E) S = T * E * S := by
    rw [hmul1]
    exact mul64_eq hfit
  have hBE : byronEndTime cfg = ST + T * E * S / 1000 := by
    unfold byronEndTime
    rw [htrans, ← hEdef, ← hSdef, ← hSTdef, ht]
    exact add64_eq hfit2
  have hBElt : byronEndTime cfg < U64 := by rw [hBE]; exact hfit2
  have hsub : sub64 (byronEndTime cfg) ST = T * E * S / 1000 := by
    rw [hBE]
    rw [sub64_eq (Nat.le_add_right ST _) hfit2]
    omega
  have hmulL : mul64 (T * E * S / 1000) 1000 = (T * E * S / 1000) * 1000 :=
    mul64_eq (lt_of_le_of_lt (Nat.div_mul_le_self _ _) hfit)
  have hL : slotTipLegacyFormula cfg (byronEndTime cfg)
      = ((T * E * S / 1000) * 1000) / S := by
    unfold slotTipLegacyFormula
    rw [← hSTdef, ← hSdef, hsub, hmulL]
  have htS : T * E * S / S = T * E := Nat.mul_div_cancel _ hS
  refine ⟨?_, ?_, ?_⟩
  · simp only [getSlotTipRef]
    rw [if_neg (lt_irrefl _)]
    have hgne : gSlotLengthNanos / 1000000 ≠ 0 := by
      have : 0 < gSlotLengthNanos / 1000000 := Nat.div_pos hg (by norm_num)
      omega
    rw [if_neg hgne]
    have hzero : sub64 (byronEndTime cfg) (byronEndTime cfg) = 0 := by
      rw [sub64_eq le_rfl hBElt]
      omega
    rw [htrans, ← hEdef, hmul1, hzero, Nat.zero_div, add64_eq (by omega)]
  · rw [hL]
    calc ((T * E * S / 1000) * 1000) / S ≤ (T * E * S) / S :=
          Nat.div_le_div_right (Nat.div_mul_le_self _ _)
      _ = T * E := htS
  · have ht' : (T * E * S / 1000) * 1000 + T * E * S % 1000 = T * E * S := by omega
    have h2 : ((T * E * S / 1000) * 1000 + T * E * S % 1000) / S
        ≤ ((T * E * S / 1000) * 1000) / S + (T * E * S % 1000) / S + 1 := by
      rw [Nat.add_div hS]
      split <;> omega
    have h3 : (T * E * S % 1000) / S ≤ 999 / S :=
      Nat.div_le_div_right (by omega)
    rw [hL]
    calc T * E = T * E * S / S := htS.symm
      _ = ((T * E * S / 1000) * 1000 + T * E * S % 1000) / S := by rw [ht']
      _ ≤ ((T * E * S / 1000) * 1000) / S + (T * E * S % 1000) / S + 1 := h2
      _ ≤ ((T * E * S / 1000) * 1000) / S + 999 / S + 1 := by omega

/-- Witness for C3: the mainnet genesis (transition epoch 208, Byron epoch
length 21600, slot length 20000 ms, start 1506203091, Shelley slot length
1 s) at its era boundary, through the theorem. -/
theorem getSlotTipRef_era_boundary_witness :
    getSlotTipRef mainnetCfg 1000000000 (byronEndTime mainnetCfg)
      = some (mainnetCfg.node.shelleyTransEpoch.toNat *
          mainnetCfg.node.byronGenesis.epochLength + 0) :=
  (getSlotTipRef_era_boundary mainnetCfg 1000000000 (by decide) (by decide)
    (by decide) (by decide) (by decide) (by decide)).1

/-- Inserting into the RTT-sorted slice grows it by exactly one. -/
theorem insertByRTT_length (p : PeerRec) (l : List PeerRec) :
    (insertByRTT p l).length = l.length + 1 := by
  induction l with
  | nil => rfl
  | cons q qs ih =>
    simp only [insertByRTT]
    split
    · simp
    · simp [ih]

/-- Sorting the slice preserves its length. -/
theorem sortByRTT_length (l : List PeerRec) : (sortByRTT l).length = l.length := by
  induction l with
  | nil => rfl
  | cons x xs ih =>
    show (insertByRTT x (sortByRTT xs)).length = xs.length + 1
    rw [insertByRTT_length, ih]

/-- The probing body bumps exactly one bucket counter and appends exactly
one result, and never touches the percentage fields. -/
theorem processPingCore_effect (rttOf : String → Int) (locOf : String → String)
    (now : Nat) (st : PingState) (ip port d : String) :
    countersSum (processPingCore rttOf locOf now st ip port d) = countersSum st + 1
    ∧ (processPingCore rttOf locOf now st ip port d).rttResultsSlice.length
        = st.rttResultsSlice.length + 1
    ∧ (processPingCore rttOf locOf now st ip port d).pct1 = st.pct1
    ∧ (processPingCore rttOf locOf now st ip port d).pct2 = st.pct2
    ∧ (processPingCore rttOf locOf now st ip port d).pct3 = st.pct3
    ∧ (processPingCore rttOf locOf now st ip port d).pct4 = st.pct4 := by
  unfold processPingCore countersSum
  refine ⟨?_, ?_, rfl, rfl, rfl, rfl⟩
  · dsimp only
    split_ifs <;> dsimp only <;> omega
  · dsimp only
    rw [sortByRTT_length, List.length_append]
    rfl

/-- One probing-loop iteration either skips (recently checked or located)
or runs the body: the counter sum and the slice length move together by
`0` or `1`, and the percentage fields are untouched. -/
theorem processPingPeer_effect (rttOf : String → Int) (locOf : String → String)
    (now : Nat) (st : PingState) (v : String) (st2 : PingState)
    (h : processPingPeer rttOf locOf now st v = .ok st2) :
    ∃ k, k ≤ 1 ∧ countersSum st2 = countersSum st + k
      ∧ st2.rttResultsSlice.length = st.rttResultsSlice.length + k
      ∧ st2.pct1 = st.pct1 ∧ st2.pct2 = st.pct2 ∧ st2.pct3 = st.pct3
      ∧ st2.pct4 = st.pct4 := by
  simp only [processPingPeer] at h
  split at h
  · split at h
    · split at h
      · injection h with h
        exact ⟨0, by omega, by rw [← h]; omega, by rw [← h]; omega, by rw [← h],
          by rw [← h], by rw [← h], by rw [← h]⟩
      · split at h
        · injection h with h
          exact ⟨0, by omega, by rw [← h]; omega, by rw [← h]; omega, by rw [← h],
            by rw [← h], by rw [← h], by rw [← h]⟩
        · injection h with h
          obtain ⟨hc, hl, h1, h2, h3, h4⟩ :=
            processPingCore_effect rttOf locOf now st _ _ _
          exact ⟨1, le_rfl, by rw [← h]; exact hc, by rw [← h]; exact hl,
            by rw [← h]; exact h1, by rw [← h]; exact h2,
            by rw [← h]; exact h3, by rw [← h]; exact h4⟩
    · injection h with h
      obtain ⟨hc, hl, h1, h2, h3, h4⟩ :=
        processPingCore_effect rttOf locOf now st _ _ _
      exact ⟨1, le_rfl, by rw [← h]; exact hc, by rw [← h]; exact hl,
        by rw [← h]; exact h1, by rw [← h]; exact h2,
        by rw [← h]; exact h3, by rw [← h]; exact h4⟩
  · cases h

/-- Accumulated effect of the probing loop: counter sum and slice length
advance by the same amount, bounded by the number of peers processed; the
percentage fields are untouched. -/
theorem pingPeersFold_effect (rttOf : String → Int) (locOf : String → String)
    (now : Nat) :
    ∀ (vs : List String) (st st2 : PingState),
      pingPeersFold rttOf locOf now st vs = .ok st2 →
      ∃ k, k ≤ vs.length ∧ countersSum st2 = countersSum st + k
        ∧ st2.rttResultsSlice.length = st.rttResultsSlice.length + k
        ∧ st2.pct1 = st.pct1 ∧ st2.pct2 = st.pct2 ∧ st2.pct3 = st.pct3
        ∧ st2.pct4 = st.pct4 := by
  intro vs
  induction vs with
  | nil =>
    intro st st2 h
    injection h with h
    exact ⟨0, by omega, by rw [← h]; omega, by rw [← h]; omega, by rw [← h],
      by rw [← h], by rw [← h], by rw [← h]⟩
  | cons v vs ih =>
    intro st st2 h
    simp only [pingPeersFold] at h
    cases hp : processPingPeer rttOf locOf now st v with
    | error e =>
      rw [hp] at h
      cases h
    | ok stm =>
      rw [hp] at h
      obtain ⟨k1, hk1, hc1, hl1, hp11, hp12, hp13, hp14⟩ :=
        processPingPeer_effect rttOf locOf now st v stm hp
      obtain ⟨k2, hk2, hc2, hl2, hp21, hp22, hp23, hp24⟩ := ih stm st2 h
      refine ⟨k1 + k2, by simp; omega, by omega, by omega, ?_, ?_, ?_, ?_⟩
      · rw [hp21, hp11]
      · rw [hp22, hp12]
      · rw [hp23, hp13]
      · rw [hp24, hp14]

/-- The percentage stage never changes counters or the results slice. -/
theorem applyPctFields_preserves (st : PingState) (n : Nat) :
    (applyPctFields st n).cnt0 = st.cnt0 ∧ (applyPctFields st n).cnt1 = st.cnt1
    ∧ (applyPctFields st n).cnt2 = st.cnt2 ∧ (applyPctFields st n).cnt3 = st.cnt3
    ∧ (applyPctFields st n).cnt4 = st.cnt4
    ∧ (applyPctFields st n).rttResultsSlice = st.rttResultsSlice := by
  simp only [applyPctFields]
  split <;> exact ⟨rfl, rfl, rfl, rfl, rfl, rfl⟩

/-- With a positive reachable count the percentage stage sets each bucket
percentage to `100 * CNTi / reachable`. -/
theorem applyPctFields_pcts_pos (st : PingState) (n : Nat)
    (h : 0 < (n : Int) - (st.cnt0 : Int)) :
    (applyPctFields st n).pct1 = (st.cnt1 : ℚ) / (((n : Int) - (st.cnt0 : Int) : Int) : ℚ) * 100
    ∧ (applyPctFields st n).pct2 = (st.cnt2 : ℚ) / (((n : Int) - (st.cnt0 : Int) : Int) : ℚ) * 100
    ∧ (applyPctFields st n).pct3 = (st.cnt3 : ℚ) / (((n : Int) - (st.cnt0 : Int) : Int) : ℚ) * 100
    ∧ (applyPctFields st n).pct4 = (st.cnt4 : ℚ) / (((n : Int) - (st.cnt0 : Int) : Int) : ℚ) * 100 := by
  simp only [applyPctFields]
  rw [if_pos h]
  exact ⟨rfl, rfl, rfl, rfl⟩

/-- With no reachable peers the percentage stage is a no-op. -/
theorem applyPctFields_nonpos (st : PingState) (n : Nat)
    (h : ¬ 0 < (n : Int) - (st.cnt0 : Int)) :
    applyPctFields st n = st := by
  simp only [applyPctFields]
  rw [if_neg h]

/-- The completion stage only touches the two flags. -/
theorem applyCompletion_preserves (st : PingState) (n : Nat) :
    (applyCompletion st n).cnt0 = st.cnt0 ∧ (applyCompletion st n).cnt1 = st.cnt1
    ∧ (applyCompletion st n).cnt2 = st.cnt2 ∧ (applyCompletion st n).cnt3 = st.cnt3
    ∧ (applyCompletion st n).cnt4 = st.cnt4
    ∧ (applyCompletion st n).rttResultsSlice = st.rttResultsSlice
    ∧ (applyCompletion st n).pct1 = st.pct1 ∧ (applyCompletion st n).pct2 = st.pct2
    ∧ (applyCompletion st n).pct3 = st.pct3 ∧ (applyCompletion st n).pct4 = st.pct4 := by
  simp only [applyCompletion]
  split <;> exact ⟨rfl, rfl, rfl, rfl, rfl, rfl, rfl, rfl, rfl, rfl⟩

/-- Claim C5: for a probing pass started from a reset state (zero
counters, zero percentages, empty results slice, probing enabled; the
results map may carry over) that runs to completion (the accumulated
result count reaches the working-set size),
the bucket counters satisfy `CNT0 + CNT1 + CNT2 + CNT3 + CNT4 = peer
count`, and the percentages `PCT1..PCT4`, computed over reachable peers
only, sum to at most 100 (exactly 100 when any peer is reachable). -/
theorem pingPeers_bucket_conservation (rttOf : String → Int) (locOf : String → String)
    (now : Nat) (peersFiltered : List String) (st0 st : PingState)
    (hinit : countersSum st0 = 0 ∧ st0.rttResultsSlice.length = 0
      ∧ st0.checkPeers = true
      ∧ st0.pct1 = 0 ∧ st0.pct2 = 0 ∧ st0.pct3 = 0 ∧ st0.pct4 = 0)
    (hrun : pingPeers rttOf locOf now peersFiltered st0 = .ok st)
    (hdone : peersFiltered.length ≤ st.rttResultsSlice.length) :
    st.cnt0 + st.cnt1 + st.cnt2 + st.cnt3 + st.cnt4 = peersFiltered.length
    ∧ st.pct1 + st.pct2 + st.pct3 + st.pct4 ≤ 100 := by
  obtain ⟨hi_sum, hi_len, hi_check, hi_p1, hi_p2, hi_p3, hi_p4⟩ := hinit
  simp only [pingPeers] at hrun
  rw [if_pos hi_check] at hrun
  split at hrun
  · cases hrun
  · rename_i stF hfold
    injection hrun with h
    obtain ⟨k, hk, hcnt, hlen, hq1, hq2, hq3, hq4⟩ :=
      pingPeersFold_effect rttOf locOf now peersFiltered _ _ hfold
    have hstart_sum : countersSum { st0 with scrollPeers := false } = 0 := hi_sum
    have hstart_len :
        ({ st0 with scrollPeers := false }).rttResultsSlice.length = 0 := hi_len
    rw [hstart_sum, Nat.zero_add] at hcnt
    rw [hstart_len, Nat.zero_add] at hlen
    obtain ⟨hA0, hA1, hA2, hA3, hA4, hAs⟩ := applyPctFields_preserves stF peersFiltered.length
    obtain ⟨hC0, hC1, hC2, hC3, hC4, hCs, hCp1, hCp2, hCp3, hCp4⟩ :=
      applyCompletion_preserves (applyPctFields stF peersFiltered.length) peersFiltered.length
    have hslice : st.rttResultsSlice = stF.rttResultsSlice := by
      rw [← h, hCs, hAs]
    have hcounters : st.cnt0 = stF.cnt0 ∧ st.cnt1 = stF.cnt1 ∧ st.cnt2 = stF.cnt2
        ∧ st.cnt3 = stF.cnt3 ∧ st.cnt4 = stF.cnt4 := by
      rw [← h]
      exact ⟨hC0.trans hA0, hC1.trans hA1, hC2.trans hA2, hC3.trans hA3, hC4.trans hA4⟩
    obtain ⟨hc0, hc1, hc2, hc3, hc4⟩ := hcounters
    have hkn : k = peersFiltered.length := by
      rw [hslice, hlen] at hdone
      omega
    have hsum : st.cnt0 + st.cnt1 + st.cnt2 + st.cnt3 + st.cnt4 = peersFiltered.length := by
      rw [hc0, hc1, hc2, hc3, hc4]
      unfold countersSum at hcnt
      omega
    refine ⟨hsum, ?_⟩
    by_cases hreach : 0 < (peersFiltered.length : Int) - (stF.cnt0 : Int)
    · obtain ⟨hp1, hp2, hp3, hp4⟩ :=
        applyPctFields_pcts_pos stF peersFiltered.length hreach
      have hst1 : st.pct1 = (stF.cnt1 : ℚ) /
          (((peersFiltered.length : Int) - (stF.cnt0 : Int) : Int) : ℚ) * 100 := by
        rw [← h, hCp1, hp1]
      have hst2 : st.pct2 = (stF.cnt2 : ℚ) /
          (((peersFiltered.length : Int) - (stF.cnt0 : Int) : Int) : ℚ) * 100 := by
        rw [← h, hCp2, hp2]
      have hst3 : st.pct3 = (stF.cnt3 : ℚ) /
          (((peersFiltered.length : Int) - (stF.cnt0 : Int) : Int) : ℚ) * 100 := by
        rw [← h, hCp3, hp3]
      have hst4 : st.pct4 = (stF.cnt4 : ℚ) /
          (((peersFiltered.length : Int) - (stF.cnt0 : Int) : Int) : ℚ) * 100 := by
        rw [← h, hCp4, hp4]
      have hrq : (0 : ℚ) < (((peersFiltered.length : Int) - (stF.cnt0 : Int) : Int) : ℚ) := by
        exact_mod_cast hreach
      have hsum4 : (stF.cnt1 : ℚ) + (stF.cnt2 : ℚ) + (stF.cnt3 : ℚ) + (stF.cnt4 : ℚ)
          = (((peersFiltered.length : Int) - (stF.cnt0 : Int) : Int) : ℚ) := by
        unfold countersSum at hcnt
        have hle : stF.cnt0 ≤ peersFiltered.length := by omega
        have hnat : stF.cnt1 + stF.cnt2 + stF.cnt3 + stF.cnt4
            = peersFiltered.length - stF.cnt0 := by omega
        have hq := congrArg (fun m : Nat => (m : ℚ)) hnat
        push_cast [Nat.cast_sub hle] at hq
        push_cast
        linarith [hq]
      rw [hst1, hst2, hst3, hst4]
      have hne : (((peersFiltered.length : Int) - (stF.cnt0 : Int) : Int) : ℚ) ≠ 0 :=
        ne_of_gt hrq
      have hcomb : (stF.cnt1 : ℚ) / (((peersFiltered.length : Int) - (stF.cnt0 : Int) : Int) : ℚ) * 100
          + (stF.cnt2 : ℚ) / (((peersFiltered.length : Int) - (stF.cnt0 : Int) : Int) : ℚ) * 100
          + (stF.cnt3 : ℚ) / (((peersFiltered.length : Int) - (stF.cnt0 : Int) : Int) : ℚ) * 100
          + (stF.cnt4 : ℚ) / (((peersFiltered.length : Int) - (stF.cnt0 : Int) : Int) : ℚ) * 100
          = ((stF.cnt1 : ℚ) + (stF.cnt2 : ℚ) + (stF.cnt3 : ℚ) + (stF.cnt4 : ℚ))
            / (((peersFiltered.length : Int) - (stF.cnt0 : Int) : Int) : ℚ) * 100 := by
        ring
      rw [hcomb, hsum4, div_self hne]
      norm_num
    · have hAeq := applyPctFields_nonpos stF peersFiltered.length hreach
      have hz1 : st.pct1 = 0 := by
        rw [← h, hCp1, hAeq, hq1]
        exact hi_p1
      have hz2 : st.pct2 = 0 := by
        rw [← h, hCp2, hAeq, hq2]
        exact hi_p2
      have hz3 : st.pct3 = 0 := by
        rw [← h, hCp3, hAeq, hq3]
        exact hi_p3
      have hz4 : st.pct4 = 0 := by
        rw [← h, hCp4, hAeq, hq4]
        exact hi_p4
      rw [hz1, hz2, hz3, hz4]
      norm_num

/-- Witness for C5: a concrete completed two-peer pass through the
theorem. -/
theorem pingPeers_bucket_conservation_witness :
    pingPeersResultW.cnt0 + pingPeersResultW.cnt1 + pingPeersResultW.cnt2
      + pingPeersResultW.cnt3 + pingPeersResultW.cnt4 = peersFilteredW.length
    ∧ pingPeersResultW.pct1 + pingPeersResultW.pct2 + pingPeersResultW.pct3
      + pingPeersResultW.pct4 ≤ 100 :=
  pingPeers_bucket_conservation rttOracleW locOracleW 1000 peersFilteredW
    initialPingState pingPeersResultW ⟨rfl, rfl, rfl, rfl, rfl, rfl, rfl⟩ rfl (by decide)
